import Mathlib

/-!
# Verification of the `optimize` WAF gateway against its specification

Shallow embedding of the Go sources of the `jiniyas/optimize` repository
(a multi-tenant WAF reverse proxy with a dual-plane DNS model) and proofs
about the embedded definitions.

Conventions used throughout:
* Go `float64` values that only ever hold decimal constants and are only
  compared (never subjected to rounding-sensitive arithmetic) are modelled
  as `ℚ`.
* Go `int` is modelled as `Int`; lengths and times as `Nat` where the Go
  value is provably non-negative (slice lengths, `time.Time` since epoch).
* Go maps are modelled as association lists with first-match lookup;
  an overwriting insert prepends.
* I/O results (database fetches, HTTP calls) are passed to the embedded
  functions as explicit `Except`/oracle arguments: the embedding computes
  exactly what the Go function computes from those results.
* A compiled `*regexp.Regexp` is modelled as an opaque total matcher
  `String → Bool`; `nil` is `Option.none`.  No claim depends on the regex
  language itself, only on nil-ness and on match outcomes.
-/

namespace Optimize

/-! ## Decision maker

From `gateway/internal/detector/decision_maker.go`.  The Go `Verdict` type
is a string type with three constants. -/

def blockVerdict : String := "BLOCK"

def monitorVerdict : String := "MONITOR"

def allowVerdict : String := "ALLOW"

/-- Embedding of `detector.Decide` (decision_maker.go lines 14–40).
The `mlAnomaly` argument is accepted but, exactly as in the Go source,
never read. -/
def Decide (ruleScore : Int) (ruleBlock : Bool) (_mlAnomaly : Bool) (mlConfidence : ℚ) :
    String × String × String :=
  if ruleBlock then (blockVerdict, "Critical Rule Match", "Rule Engine")
  else if ruleScore ≥ 15 then (blockVerdict, "High Risk Rule Score", "Rule Engine")
  else if mlConfidence > 0.8 then (blockVerdict, "AI/Hybrid Anomaly Detected", "ML Engine")
  else if mlConfidence > 0.65 then
    (monitorVerdict, "Suspicious Activity (Medium Risk)", "ML Engine")
  else if ruleScore ≥ 10 ∧ mlConfidence > 0.40 then
    (monitorVerdict, "Combined Rule+ML Suspicion", "Hybrid")
  else (allowVerdict, "Clean", "None")

/-- One row of the decision table of spec §4.4: a guard over the four
inputs together with the verdict/reason/source the row prescribes. -/
structure DecisionRow where
  guard : Int → Bool → Bool → ℚ → Bool
  verdict : String
  reason : String
  source : String

/-- Modelled from the spec: the §4.4 decision table, one row per line, in
the spec's order.  Reason and source strings are the code's constants for
the spec's labels (spec `RuleEngine` ↦ `"Rule Engine"`, `MLEngine` ↦
`"ML Engine"`, `"AI/Hybrid Anomaly"` ↦ `"AI/Hybrid Anomaly Detected"`,
`"Suspicious (Medium)"` ↦ `"Suspicious Activity (Medium Risk)"`,
`"Combined Rule+ML"` ↦ `"Combined Rule+ML Suspicion"`). -/
def specTable : List DecisionRow :=
  [ ⟨fun _ hb _ _ => hb, blockVerdict, "Critical Rule Match", "Rule Engine"⟩,
    ⟨fun s _ _ _ => 15 ≤ s, blockVerdict, "High Risk Rule Score", "Rule Engine"⟩,
    ⟨fun _ _ _ c => 0.8 < c, blockVerdict, "AI/Hybrid Anomaly Detected", "ML Engine"⟩,
    ⟨fun _ _ _ c => 0.65 < c, monitorVerdict, "Suspicious Activity (Medium Risk)", "ML Engine"⟩,
    ⟨fun s _ _ c => 10 ≤ s && 0.40 < c, monitorVerdict, "Combined Rule+ML Suspicion", "Hybrid"⟩ ]

/-- First-match evaluation of a decision table; the spec's "otherwise"
row (Allow / "Clean" / None) is the fall-through. -/
def firstMatch (rows : List DecisionRow) (s : Int) (hb ia : Bool) (c : ℚ) :
    String × String × String :=
  match rows with
  | [] => (allowVerdict, "Clean", "None")
  | r :: rest => if r.guard s hb ia c then (r.verdict, r.reason, r.source)
                 else firstMatch rest s hb ia c

/-- **C1.** `Decide` is a pure function of its four inputs and agrees with
first-match evaluation of the spec §4.4 table on every input; in
particular rule score 15 blocks, 14 with ML confidence 0.81 blocks, 10
with 0.41 monitors, and 9 with 0.65 allows (for either value of the
`ml_is_anomaly` flag, which the table never consults). -/
theorem decide_matches_spec_table :
    (∀ (s : Int) (hb ia : Bool) (c : ℚ), Decide s hb ia c = firstMatch specTable s hb ia c) ∧
    (∀ ia, (Decide 15 false ia 0).1 = blockVerdict) ∧
    (∀ ia, (Decide 14 false ia 0.81).1 = blockVerdict) ∧
    (∀ ia, (Decide 10 false ia 0.41).1 = monitorVerdict) ∧
    (∀ ia, (Decide 9 false ia 0.65).1 = allowVerdict) := by
  refine ⟨fun s hb ia c => ?_, fun _ => rfl,
    fun _ => by norm_num [Decide, blockVerdict],
    fun _ => by norm_num [Decide, monitorVerdict],
    fun _ => by norm_num [Decide, allowVerdict]⟩
  simp only [Decide, firstMatch, specTable, ge_iff_le, decide_eq_true_eq, Bool.and_eq_true,
    decide_eq_true_iff]

/-! ## Rate limiter

From `gateway/internal/limiter/limiter.go`.  Time is modelled as natural
nanoseconds since the epoch; a `time.Duration` window `w` is in the same
unit, so Go's `now.Truncate(window)` is `now / w * w` and duration
division truncates like `Nat` division. -/

structure ClientStatus where
  currCount : Int
  prevCount : Int
  currWindowStart : ℕ
  deriving DecidableEq

/-- Embedding of the window-rollover step of `RateLimiter.Allow`
(limiter.go lines 49–66): when the call falls in a later window than the
stored one, either shift the counters (exactly one window elapsed) or
zero both, and move the window start. -/
def shiftWindows (w now : ℕ) (st : ClientStatus) : ClientStatus :=
  let currWindowStart := now / w * w
  if st.currWindowStart < currWindowStart then
    let elapsedWindows := (currWindowStart - st.currWindowStart) / w
    if elapsedWindows = 1 then ⟨0, st.currCount, currWindowStart⟩
    else ⟨0, 0, currWindowStart⟩
  else st

/-- Embedding of `RateLimiter.Allow` (limiter.go lines 29–84).  The per-IP
map access is made explicit: the argument is the stored entry for the
calling IP (`none` on first sight) and the result pairs the returned
boolean with the entry as left in the map. -/
def rlAllow (w : ℕ) (limit : ℚ) (now : ℕ) (entry : Option ClientStatus) :
    Bool × ClientStatus :=
  let currWindowStart := now / w * w
  match entry with
  | none => (true, ⟨1, 0, currWindowStart⟩)
  | some st0 =>
    let st := shiftWindows w now st0
    let timeIntoWindow := now - currWindowStart
    let prevWeight : ℚ := ((w : ℚ) - (timeIntoWindow : ℚ)) / (w : ℚ)
    let estimatedRate : ℚ := (st.prevCount : ℚ) * prevWeight + (st.currCount : ℚ)
    if limit ≤ estimatedRate then (false, st)
    else (true, { st with currCount := st.currCount + 1 })

/-- Embedding of `RateLimiter.IsRateLimited` (limiter.go lines 87–89):
the negation of `Allow`, with the same map side effect. -/
def isRateLimited (w : ℕ) (limit : ℚ) (now : ℕ) (entry : Option ClientStatus) :
    Bool × ClientStatus :=
  let r := rlAllow w limit now entry
  (!r.1, r.2)

/-- The spec §4.1 estimate `prev × (1 − elapsed_fraction) + curr`, where
the elapsed fraction of the current window is `(now mod w) / w`. -/
def specEstimatedRate (w now : ℕ) (st : ClientStatus) : ℚ :=
  (st.prevCount : ℚ) * (1 - ((now % w : ℕ) : ℚ) / (w : ℚ)) + (st.currCount : ℚ)

/-- **C4.** For a call on an already-seen IP: the limiter admits iff the
spec's estimated rate — computed over the counters after the
window-rollover adjustment — is strictly below the budget; the stored
current-window counter is incremented exactly when the decision is admit;
and when more than one whole window elapsed since the stored window
start, both counters are zeroed by the adjustment. -/
theorem rlAllow_sliding_window (w : ℕ) (limit : ℚ) (now : ℕ) (st : ClientStatus)
    (hw : 0 < w) :
    ((rlAllow w limit now (some st)).1 = true ↔
        specEstimatedRate w now (shiftWindows w now st) < limit) ∧
    ((rlAllow w limit now (some st)).2.currCount =
        (shiftWindows w now st).currCount +
          (if (rlAllow w limit now (some st)).1 then 1 else 0)) ∧
    ((rlAllow w limit now (some st)).2.prevCount = (shiftWindows w now st).prevCount) ∧
    (st.currWindowStart + 2 * w ≤ now → w ∣ st.currWindowStart →
      (shiftWindows w now st).prevCount = 0 ∧ (shiftWindows w now st).currCount = 0) := by
  have hwQ : ((w : ℕ) : ℚ) ≠ 0 := Nat.cast_ne_zero.mpr hw.ne'
  have hmod : now - now / w * w = now % w := by
    conv_rhs => rw [Nat.mod_def]
    rw [Nat.mul_comm]
  have hre : rlAllow w limit now (some st) =
      (if limit ≤ (shiftWindows w now st).prevCount *
            (((w : ℚ) - ((now - now / w * w : ℕ) : ℚ)) / (w : ℚ)) +
            ((shiftWindows w now st).currCount : ℚ)
       then (false, shiftWindows w now st)
       else (true, { shiftWindows w now st with
                      currCount := (shiftWindows w now st).currCount + 1 })) := rfl
  have hest : ((shiftWindows w now st).prevCount : ℚ) *
        (((w : ℚ) - ((now - now / w * w : ℕ) : ℚ)) / (w : ℚ)) +
        ((shiftWindows w now st).currCount : ℚ)
      = specEstimatedRate w now (shiftWindows w now st) := by
    rw [hmod, specEstimatedRate]
    field_simp
  refine ⟨?_, ?_, ?_, ?_⟩
  · rw [hre, hest]
    split_ifs with h
    · simpa using not_lt.mpr h
    · simpa using not_le.mp h
  · rw [hre]; split_ifs <;> simp_all
  · rw [hre]; split_ifs <;> simp_all
  · intro h2 hdvd
    obtain ⟨a, ha⟩ := hdvd
    have hlt : st.currWindowStart < now / w * w := by
      have haw : (a + 2) * w ≤ now := by
        calc (a + 2) * w = w * a + 2 * w := by ring
        _ = st.currWindowStart + 2 * w := by rw [ha]
        _ ≤ now := h2
      have hdiv : a + 2 ≤ now / w := (Nat.le_div_iff_mul_le hw).mpr haw
      calc st.currWindowStart = w * a := ha
      _ < (a + 2) * w := by nlinarith
      _ ≤ now / w * w := Nat.mul_le_mul_right w hdiv
    have helapsed : (now / w * w - st.currWindowStart) / w ≠ 1 := by
      have haw2 : a + 2 ≤ now / w :=
        (Nat.le_div_iff_mul_le hw).mpr (by
          calc (a + 2) * w = w * a + 2 * w := by ring
          _ = st.currWindowStart + 2 * w := by rw [ha]
          _ ≤ now := h2)
      have : now / w * w - st.currWindowStart = (now / w - a) * w := by
        rw [ha, Nat.sub_mul, Nat.mul_comm a w]
      rw [this, Nat.mul_div_cancel _ hw]
      omega
    simp [shiftWindows, if_pos hlt, if_neg helapsed]

/-- Witness for `rlAllow_sliding_window` at a one-minute window (60 time
units), budget 100, a stored entry from window start 60 and a call at
time 190 (two whole windows later, so both counters are zeroed). -/
theorem rlAllow_sliding_window_witness :
    0 < 60 ∧
    ((rlAllow 60 100 190 (some ⟨5, 3, 60⟩)).1 = true ↔
        specEstimatedRate 60 190 (shiftWindows 60 190 ⟨5, 3, 60⟩) < 100) ∧
    ((60 : ℕ) + 2 * 60 ≤ 190 ∧ (60 : ℕ) ∣ 60) ∧
    ((shiftWindows 60 190 ⟨5, 3, 60⟩).prevCount = 0 ∧
      (shiftWindows 60 190 ⟨5, 3, 60⟩).currCount = 0) :=
  ⟨by decide, (rlAllow_sliding_window 60 100 190 ⟨5, 3, 60⟩ (by decide)).1,
    ⟨by decide, by decide⟩,
    (rlAllow_sliding_window 60 100 190 ⟨5, 3, 60⟩ (by decide)).2.2.2
      (by decide) (by decide)⟩

/-! ## Rule engine

From the `detector` package (`CheckRequest`/`evaluate`/`compareInt`,
shipped alongside `gateway/internal/service/dns_service.go` in the source
drop) and the rule model of `gateway/internal/core/models.go`.  Strings
are compared at character level; Go byte lengths are modelled as
character counts (all claim-relevant inputs are ASCII). -/

/-- A Go `interface{}` value as decoded from BSON/JSON: the dynamic types
that `evaluate`/`compareInt` type-switch on, plus `other` for any other
runtime type. -/
inductive GoValue
  | str (s : String)
  | int (n : Int)
  | float (q : ℚ)
  | int32 (n : Int)
  | int64 (n : Int)
  | bool (b : Bool)
  | other

/-- Go's `int(v)` conversion of a `float64`: truncation toward zero. -/
def ratTrunc (q : ℚ) : Int := if 0 ≤ q then ⌊q⌋ else ⌈q⌉

/-- Embedding of `compareInt`: numeric "greater than" of the actual
metric against the condition value, `false` for any non-numeric type. -/
def compareInt (val : GoValue) (actual : Int) : Bool :=
  match val with
  | .int v => actual > v
  | .float q => actual > ratTrunc q
  | .int32 v => actual > v
  | .int64 v => actual > v
  | _ => false

/-- A compiled `*regexp.Regexp` as an opaque matcher; `none` models nil
(no compilation, or compile failure at cache-build time). -/
def Matcher := String → Bool

structure Condition where
  field : String
  operator : String
  value : GoValue
  compiledRegex : Option Matcher

structure MatchAction where
  scoreAdd : Int
  tags : List String
  hardBlock : Bool
  deriving DecidableEq

structure WAFRule where
  id : String
  ownerID : String
  name : String
  conditions : List Condition
  onMatch : MatchAction
  priority : Int
  enabled : Bool

/-- Hex digit value, as `net/url`'s `unhex`. -/
def hexVal (c : Char) : Option ℕ :=
  if '0' ≤ c ∧ c ≤ '9' then some (c.toNat - 48)
  else if 'a' ≤ c ∧ c ≤ 'f' then some (c.toNat - 87)
  else if 'A' ≤ c ∧ c ≤ 'F' then some (c.toNat - 55)
  else none

/-- Character-level core of Go `url.QueryUnescape`: `%XX` decodes, `+`
becomes space, a malformed escape is an error (`none`). -/
def unescapeChars : List Char → Option (List Char)
  | [] => some []
  | '%' :: c1 :: c2 :: rest =>
    match hexVal c1, hexVal c2 with
    | some h1, some h2 => (unescapeChars rest).map (Char.ofNat (16 * h1 + h2) :: ·)
    | _, _ => none
  | '%' :: _ => none
  | '+' :: rest => (unescapeChars rest).map (' ' :: ·)
  | c :: rest => (unescapeChars rest).map (c :: ·)

/-- Go `url.QueryUnescape` as used with `decoded, _ := ...`: the error
case leaves the zero value `""`. -/
def queryUnescape (s : String) : String :=
  match unescapeChars s.data with
  | some cs => String.mk cs
  | none => ""

/-- The request fields the embedded pipeline reads. -/
structure Request where
  method : String
  path : String
  rawQuery : String
  body : String
  host : String
  userAgent : String
  deriving DecidableEq

/-- The combined inspection string built by `CheckRequest`: URL-decoded
path, URL-decoded raw query and body, space-separated. -/
def combinedPayload (r : Request) : String :=
  queryUnescape r.path ++ " " ++ queryUnescape r.rawQuery ++ " " ++ r.body

/-- The distinct query keys produced by Go `url.Values` parsing of the raw
query (`r.URL.Query()`): segments split on `&`; a segment containing `;`
or empty is skipped; key and value (cut at the first `=`) must both
unescape. -/
def queryKeys (query : String) : List String :=
  (query.data.splitOn '&').filterMap (fun seg =>
    if seg.contains ';' then none
    else if seg = [] then none
    else
      let parts := seg.splitOn '='
      let key := parts.headD []
      let val := List.intercalate ['='] parts.tail
      match unescapeChars key, unescapeChars val with
      | some ks, some _ => some (String.mk ks)
      | _, _ => none)

/-- `len(r.URL.Query())`: the number of distinct parsed keys. -/
def goParamCount (query : String) : ℕ := (queryKeys query).dedup.length

/-- Embedding of `evaluate`: dispatch on the condition's field; every
unrecognized field, nil regex, wrong operator or wrong dynamic value type
falls through to `false`. -/
def evaluate (cond : Condition) (r : Request) (combined : String)
    (paramCount bodyLen : Int) (isRateLimited : Bool) : Bool :=
  if cond.field = "request.combined" then
    match cond.compiledRegex with
    | some m => m combined
    | none => false
  else if cond.field = "request.headers.User-Agent" then
    match cond.compiledRegex with
    | some m => m r.userAgent
    | none => false
  else if cond.field = "request.method" then
    if cond.operator = "equals" then
      match cond.value with
      | .str v => r.method == v
      | _ => false
    else false
  else if cond.field = "meta.param_count" then compareInt cond.value paramCount
  else if cond.field = "meta.body_length" then compareInt cond.value bodyLen
  else if cond.field = "meta.rate_limited" then
    if cond.operator = "equals_bool" then
      match cond.value with
      | .bool v => isRateLimited == v
      | _ => false
    else false
  else false

/-- A rule matches iff all of its conditions evaluate true (the Go loop
with early break). -/
def ruleMatches (rule : WAFRule) (r : Request) (combined : String)
    (paramCount bodyLen : Int) (isRateLimited : Bool) : Bool :=
  rule.conditions.all (fun c => evaluate c r combined paramCount bodyLen isRateLimited)

/-- One iteration of the `CheckRequest` rule loop: skip disabled rules;
on a match add the score, append the tags and OR in the hard-block
flag. -/
def checkStep (r : Request) (combined : String) (paramCount bodyLen : Int)
    (isRateLimited : Bool) (acc : Int × List String × Bool) (rule : WAFRule) :
    Int × List String × Bool :=
  if rule.enabled then
    if ruleMatches rule r combined paramCount bodyLen isRateLimited then
      (acc.1 + rule.onMatch.scoreAdd, acc.2.1 ++ rule.onMatch.tags,
        acc.2.2 || rule.onMatch.hardBlock)
    else acc
  else acc

/-- Embedding of `CheckRequest`: fold the rule loop over the supplied
slice and return `(score, tags, hard-block, combined payload)`. -/
def CheckRequest (r : Request) (rules : List WAFRule) (isRateLimited : Bool) :
    Int × List String × Bool × String :=
  let combined := combinedPayload r
  let paramCount : Int := (goParamCount r.rawQuery : Int)
  let bodyLen : Int := (r.body.length : Int)
  let res := rules.foldl (checkStep r combined paramCount bodyLen isRateLimited) (0, [], false)
  (res.1, res.2.1, res.2.2, combined)

/-- The failure modes of a single rule condition: a field outside the six
recognized ones, a nil compiled regex on a regex-matched field, or a
condition value whose dynamic type does not fit the recognized field's
operator. -/
def badCond (c : Condition) : Prop :=
  c.field ∉ ["request.combined", "request.headers.User-Agent", "request.method",
      "meta.param_count", "meta.body_length", "meta.rate_limited"] ∨
  ((c.field = "request.combined" ∨ c.field = "request.headers.User-Agent") ∧
    c.compiledRegex = none) ∨
  (c.field = "request.method" ∧ c.operator = "equals" ∧ ∀ s, c.value ≠ .str s) ∨
  ((c.field = "meta.param_count" ∨ c.field = "meta.body_length") ∧
    (∀ n, c.value ≠ .int n) ∧ (∀ q, c.value ≠ .float q) ∧
    (∀ n, c.value ≠ .int32 n) ∧ (∀ n, c.value ≠ .int64 n)) ∨
  (c.field = "meta.rate_limited" ∧ c.operator = "equals_bool" ∧ ∀ b, c.value ≠ .bool b)

theorem evaluate_false_of_badCond (c : Condition) (r : Request) (combined : String)
    (paramCount bodyLen : Int) (limited : Bool) (hc : badCond c) :
    evaluate c r combined paramCount bodyLen limited = false := by
  rcases hc with h | ⟨hf, hre⟩ | ⟨hf, hop, hv⟩ | ⟨hf, h1, h2, h3, h4⟩ | ⟨hf, hop, hv⟩
  · simp only [List.mem_cons, List.not_mem_nil, or_false, not_or] at h
    obtain ⟨n1, n2, n3, n4, n5, n6⟩ := h
    simp [evaluate, n1, n2, n3, n4, n5, n6]
  · rcases hf with hf | hf <;> simp [evaluate, hf, hre]
  · rcases hval : c.value <;> simp_all [evaluate]
  · rcases hf with hf | hf <;> rcases hval : c.value <;> simp_all [evaluate, compareInt]
  · rcases hval : c.value <;> simp_all [evaluate]

/-- **C10.** A condition with an unrecognized field, a nil compiled
regex, or an ill-typed value evaluates to false; a rule containing such a
condition never matches, and removing it from the evaluated slice changes
nothing in `CheckRequest`'s score, tags, hard-block flag or trigger
payload. -/
theorem bad_condition_never_contributes (c : Condition) (rule : WAFRule) (r : Request)
    (combined : String) (paramCount bodyLen : Int) (limited : Bool)
    (l1 l2 : List WAFRule) (hc : badCond c) (hmem : c ∈ rule.conditions) :
    evaluate c r combined paramCount bodyLen limited = false ∧
    ruleMatches rule r combined paramCount bodyLen limited = false ∧
    CheckRequest r (l1 ++ rule :: l2) limited = CheckRequest r (l1 ++ l2) limited := by
  refine ⟨evaluate_false_of_badCond c r combined paramCount bodyLen limited hc, ?_, ?_⟩
  · apply List.all_eq_false.mpr
    exact ⟨c, hmem, by
      simp [evaluate_false_of_badCond c r combined paramCount bodyLen limited hc]⟩
  · have hstep : ∀ acc, checkStep r (combinedPayload r) (goParamCount r.rawQuery : Int)
        (r.body.length : Int) limited acc rule = acc := by
      intro acc
      have hm : ruleMatches rule r (combinedPayload r) (goParamCount r.rawQuery : Int)
          (r.body.length : Int) limited = false :=
        List.all_eq_false.mpr ⟨c, hmem, by
          simp [evaluate_false_of_badCond c r (combinedPayload r)
            (goParamCount r.rawQuery : Int) (r.body.length : Int) limited hc]⟩
      simp [checkStep, hm]
    simp [CheckRequest, List.foldl_append, hstep]

def cexBadCondition : Condition := ⟨"nonexistent.field", "equals", .str "x", none⟩

def cexBadRule : WAFRule :=
  ⟨"r0", "", "bad rule", [cexBadCondition], ⟨5, ["tag"], true⟩, 0, true⟩

def cexPlainRequest : Request := ⟨"GET", "/", "", "", "a.example", "curl"⟩

/-- Witness for `bad_condition_never_contributes`: a rule whose only
condition names an unrecognized field contributes nothing. -/
theorem bad_condition_never_contributes_witness :
    badCond cexBadCondition ∧ cexBadCondition ∈ cexBadRule.conditions ∧
    (evaluate cexBadCondition cexPlainRequest "/  " 0 0 false = false ∧
      ruleMatches cexBadRule cexPlainRequest "/  " 0 0 false = false ∧
      CheckRequest cexPlainRequest ([] ++ cexBadRule :: []) false =
        CheckRequest cexPlainRequest ([] ++ []) false) :=
  ⟨Or.inl (by decide), List.mem_singleton.mpr rfl,
    bad_condition_never_contributes cexBadCondition cexBadRule cexPlainRequest "/  " 0 0 false
      [] [] (Or.inl (by decide)) (List.mem_singleton.mpr rfl)⟩

/-! ## Policy cache rule assembly

From `WAFHandler.ReloadRules` (`gateway/internal/proxy/handler.go` lines
74–192) and `WAFService.ReloadRules` (`rule_service.go`), which build the
per-domain effective rulesets.  `database.GetRules` fetches the rules
collection sorted by ascending `_id`, i.e. insertion order; the `rules`
list argument below is that fetched order. -/

/-- `models.Domain` / `core.Domain` as used by the cache and the domain
lifecycle (union of the fields the embedded functions read). -/
structure Domain where
  id : String
  userID : String
  name : String
  status : String
  nameservers : List String
  proxyEnabled : Bool
  deriving DecidableEq

structure RulePolicy where
  userID : String
  ruleID : String
  domainID : String
  enabled : Bool
  deriving DecidableEq

/-- Lookup in the Go `map[policyKey]bool` built by iterating the policy
list: the map holds the last write for each `(rule_id, domain_id)` key. -/
def policyFind (ps : List RulePolicy) (rid did : String) : Option Bool :=
  ((ps.filter (fun p => p.ruleID == rid && p.domainID == did)).getLast?).map (·.enabled)

/-- The `isEnabled` helper of `ReloadRules`: domain-specific override,
else tenant-wide override (empty `domain_id`), else default true. -/
def isEnabledLookup (ps : List RulePolicy) (rid did : String) : Bool :=
  match policyFind ps rid did with
  | some b => b
  | none =>
    match policyFind ps rid "" with
    | some b => b
    | none => true

/-- The `globalRules` slice built by the partition loop of `ReloadRules`:
rules with empty `owner_id`, in fetched order. -/
def globalsOf (rules : List WAFRule) : List WAFRule :=
  rules.foldl (fun acc r => if r.ownerID == "" then acc ++ [r] else acc) []

/-- The `privateRules[owner]` slice built by the partition loop: rules
with the given non-empty owner, in fetched order (a missing key yields
the empty slice). -/
def privatesOf (rules : List WAFRule) (owner : String) : List WAFRule :=
  rules.foldl (fun acc r => if !(r.ownerID == "") && r.ownerID == owner then acc ++ [r] else acc) []

/-- The effective ruleset `ReloadRules` assembles for an active domain
`d`: the enabled global rules, then the enabled rules owned by `d`'s
tenant, each appended in loop order. -/
def effectiveRules (rules : List WAFRule) (ps : List RulePolicy) (d : Domain) : List WAFRule :=
  let glob := (globalsOf rules).foldl
    (fun acc r => if isEnabledLookup ps r.id d.id then acc ++ [r] else acc) []
  (privatesOf rules d.userID).foldl
    (fun acc r => if isEnabledLookup ps r.id d.id then acc ++ [r] else acc) glob

theorem foldl_append_filter {α : Type} (p : α → Bool) (l : List α) (acc : List α) :
    l.foldl (fun a r => if p r then a ++ [r] else a) acc = acc ++ l.filter p := by
  induction l generalizing acc with
  | nil => simp
  | cons x xs ih => cases hp : p x <;> simp [List.filter_cons, hp, ih]

theorem checkStep_foldl (r : Request) (combined : String) (pc bl : Int) (limited : Bool)
    (l : List WAFRule) (acc : Int × List String × Bool) :
    l.foldl (checkStep r combined pc bl limited) acc =
      (acc.1 + ((l.filter (fun ru => ru.enabled &&
            ruleMatches ru r combined pc bl limited)).map (fun ru => ru.onMatch.scoreAdd)).sum,
       acc.2.1 ++ ((l.filter (fun ru => ru.enabled &&
            ruleMatches ru r combined pc bl limited)).map (fun ru => ru.onMatch.tags)).flatten,
       acc.2.2 || (l.filter (fun ru => ru.enabled &&
            ruleMatches ru r combined pc bl limited)).any (fun ru => ru.onMatch.hardBlock)) := by
  induction l generalizing acc with
  | nil => simp
  | cons x xs ih =>
    rcases acc with ⟨s, tg, b⟩
    cases he : x.enabled <;> cases hm : ruleMatches x r combined pc bl limited <;>
      simp [checkStep, he, hm, ih, List.filter_cons, add_assoc, List.append_assoc,
        Bool.or_assoc]

/-- The ordering property claim C3 asserts of an evaluated rule slice:
lower `priority` always sits at a strictly earlier index. -/
def priorityOrdered (l : List WAFRule) : Prop :=
  ∀ (i j : ℕ) (hi : i < l.length) (hj : j < l.length),
    (l.get ⟨i, hi⟩).priority < (l.get ⟨j, hj⟩).priority → i < j

def cexRuleHigh : WAFRule := ⟨"r1", "", "inserted first", [], ⟨5, [], false⟩, 10, true⟩

def cexRuleLow : WAFRule := ⟨"r2", "", "inserted second", [], ⟨5, [], false⟩, 1, true⟩

def cexDomain : Domain := ⟨"d1", "u1", "example.com", "active", [], true⟩

/-- Counterexample for C3: with two enabled global rules fetched in
insertion order — the first with priority 10, the second with priority
1 — the effective slice keeps insertion order, so the priority-ascending
ordering the claim asserts fails. -/
theorem effective_rules_not_priority_ordered :
    ¬ priorityOrdered (effectiveRules [cexRuleHigh, cexRuleLow] [] cexDomain) := by
  intro h
  have hl : effectiveRules [cexRuleHigh, cexRuleLow] [] cexDomain =
      [cexRuleHigh, cexRuleLow] := rfl
  rw [hl] at h
  have h2 := h 1 0 (by norm_num) (by norm_num) (by decide)
  omega

/-- **C3 (amended).** The rule engine evaluates a host's effective rules
in slice order, and the slice is: the enabled global rules in fetched
(insertion) order, followed by the enabled rules owned by the domain's
tenant in fetched order — rule `priority` is not consulted.  Moreover
`CheckRequest` applies score, tags and hard-block in that slice order
(left fold), as the tags equation shows. -/
theorem effective_rules_insertion_order (rules : List WAFRule) (ps : List RulePolicy)
    (d : Domain) (r : Request) (limited : Bool) (l : List WAFRule) :
    effectiveRules rules ps d =
      (rules.filter (fun ru => ru.ownerID == "")).filter
        (fun ru => isEnabledLookup ps ru.id d.id) ++
      (rules.filter (fun ru => !(ru.ownerID == "") && ru.ownerID == d.userID)).filter
        (fun ru => isEnabledLookup ps ru.id d.id) ∧
    (CheckRequest r l limited).1 =
      ((l.filter (fun ru => ru.enabled && ruleMatches ru r (combinedPayload r)
          (goParamCount r.rawQuery : Int) (r.body.length : Int) limited)).map
        (fun ru => ru.onMatch.scoreAdd)).sum ∧
    (CheckRequest r l limited).2.1 =
      ((l.filter (fun ru => ru.enabled && ruleMatches ru r (combinedPayload r)
          (goParamCount r.rawQuery : Int) (r.body.length : Int) limited)).map
        (fun ru => ru.onMatch.tags)).flatten := by
  refine ⟨?_, ?_, ?_⟩
  · rw [effectiveRules, globalsOf, privatesOf, foldl_append_filter, foldl_append_filter,
      foldl_append_filter, foldl_append_filter]
    simp
  · rw [CheckRequest]
    rw [checkStep_foldl]
    simp
  · rw [CheckRequest]
    rw [checkStep_foldl]
    simp

/-! ## Request pipeline

From `WAFHandler.ServeHTTP` (`gateway/internal/proxy/handler.go` lines
230–326).  The effectful collaborators are passed as oracles: `limited`
is the value `RateLimiter.IsRateLimited` returns for this call, and `ml`
is what `CheckML` would return if called (the pipeline only consults it
on the no-hard-block, score < 15 path, exactly as the code only calls
`CheckML` there).  Forwarding to the origin is the `forward` outcome; the
per-tenant stats buffering (`TrackRequest`) touches nothing a claim
mentions and is not modelled. -/

/-- The parsed ML scorer response `(is_anomaly, confidence, tag,
trigger_content)`. -/
structure MLResult where
  isAnomaly : Bool
  confidence : ℚ
  tag : String
  trigger : String
  deriving DecidableEq

/-- The `AttackLogEvent` fields `logger.LogAttack` receives (timestamp
and full request snapshot omitted). -/
structure AttackEvent where
  userID : String
  domainID : String
  clientIP : String
  path : String
  reason : String
  action : String
  source : String
  tags : List String
  ruleScore : Int
  mlConfidence : ℚ
  trigger : String
  deriving DecidableEq

inductive Outcome
  | respond (status : ℕ) (body : String)
  | forward
  deriving DecidableEq

structure PipelineResult where
  outcome : Outcome
  events : List AttackEvent
  deriving DecidableEq

/-- `getHost` (handler.go lines 220–228): strip the port when the Host
header has the two-part `host:port` shape (Go's `net.SplitHostPort`;
on a parse error the header is kept whole). -/
def getHost (host : String) : String :=
  if host.data.contains ':' then
    match host.data.splitOn ':' with
    | [h, _] => String.mk h
    | _ => host
  else host

/-- The verdict computation of `ServeHTTP` steps 3–6 (handler.go lines
260–284): rate-limit flag in, rule engine, conditional ML, `Decide`,
ML-tag append and trigger replacement. -/
structure DecisionOutcome where
  verdict : String
  reason : String
  source : String
  mlUsed : MLResult
  ruleScore : Int
  tags : List String
  finalTrigger : String

def pipelineDecide (rules : List WAFRule) (req : Request) (limited : Bool)
    (ml : MLResult) : DecisionOutcome :=
  match CheckRequest req rules limited with
  | (ruleScore, triggeredTags, ruleBlock, rulePayload) =>
    let mlr := if ruleBlock = false ∧ ruleScore < 15 then ml else ⟨false, 0, "", ""⟩
    match Decide ruleScore ruleBlock mlr.isAnomaly mlr.confidence with
    | (verdict, reason, source) =>
      let tags := if mlr.tag ≠ "" ∧ mlr.tag ≠ "Normal" ∧
          (mlr.isAnomaly = true ∨ mlr.confidence > 0.60)
        then triggeredTags ++ [mlr.tag] else triggeredTags
      let finalTrigger := if source = "ML Engine" ∨ (source = "Hybrid" ∧ mlr.trigger ≠ "")
        then mlr.trigger else rulePayload
      ⟨verdict, reason, source, mlr, ruleScore, tags, finalTrigger⟩

/-- The event handed to `logger.LogAttack` in the Block/Monitor arms. -/
def mkEvent (dInfo : Domain) (ip : String) (req : Request) (o : DecisionOutcome)
    (action : String) : AttackEvent :=
  ⟨dInfo.userID, dInfo.id, ip, req.path, o.reason, action, o.source, o.tags, o.ruleScore,
    o.mlUsed.confidence, o.finalTrigger⟩

/-- Embedding of `WAFHandler.ServeHTTP`: cache lookup, unconfigured-host
404, verdict computation, then block (403 + event), monitor (forward +
event) or allow (forward, no event). -/
def serveHTTP (dm : List (String × Domain)) (dr : List (String × List WAFRule))
    (pg : String) (req : Request) (ip : String) (limited : Bool) (ml : MLResult) :
    PipelineResult :=
  let host := getHost req.host
  match dm.lookup host with
  | none => ⟨.respond 404 (if 0 < pg.length then pg else "Domain not configured"), []⟩
  | some dInfo =>
    let rules := (dr.lookup host).getD []
    let o := pipelineDecide rules req limited ml
    if o.verdict = blockVerdict then
      ⟨.respond 403 ("WAF Blocked: " ++ o.reason), [mkEvent dInfo ip req o "Blocked"]⟩
    else if o.verdict = monitorVerdict then
      ⟨.forward, [mkEvent dInfo ip req o "Flagged"]⟩
    else ⟨.forward, []⟩

/-- **C2.** A request whose extracted host is absent from the policy
cache's host map gets status 404 with the branded unconfigured-domain
body, and no log event is emitted. -/
theorem unknown_host_404_no_event (dm : List (String × Domain))
    (dr : List (String × List WAFRule)) (pg : String) (req : Request) (ip : String)
    (limited : Bool) (ml : MLResult) (habs : dm.lookup (getHost req.host) = none) :
    (serveHTTP dm dr pg req ip limited ml).outcome =
      .respond 404 (if 0 < pg.length then pg else "Domain not configured") ∧
    (serveHTTP dm dr pg req ip limited ml).events = [] := by
  rw [serveHTTP]
  rw [habs]
  exact ⟨rfl, rfl⟩

/-- Witness for `unknown_host_404_no_event`: a host with no cache entry. -/
theorem unknown_host_404_no_event_witness :
    ([("a.example", cexDomain)].lookup (getHost "b.example") = (none : Option Domain)) ∧
    (serveHTTP [("a.example", cexDomain)] [] "BRANDED"
        ⟨"GET", "/x", "", "", "b.example", "curl"⟩ "1.2.3.4" false ⟨false, 0, "", ""⟩).outcome =
      .respond 404 (if 0 < ("BRANDED" : String).length then "BRANDED"
        else "Domain not configured") ∧
    (serveHTTP [("a.example", cexDomain)] [] "BRANDED"
        ⟨"GET", "/x", "", "", "b.example", "curl"⟩ "1.2.3.4" false ⟨false, 0, "", ""⟩).events = [] := by
  refine ⟨by decide, ?_⟩
  exact unknown_host_404_no_event [("a.example", cexDomain)] [] "BRANDED"
    ⟨"GET", "/x", "", "", "b.example", "curl"⟩ "1.2.3.4" false ⟨false, 0, "", ""⟩ (by decide)

theorem pipelineDecide_trigger (rules : List WAFRule) (req : Request) (limited : Bool)
    (ml : MLResult) :
    (pipelineDecide rules req limited ml).finalTrigger =
      (if (pipelineDecide rules req limited ml).source = "ML Engine" ∨
          ((pipelineDecide rules req limited ml).source = "Hybrid" ∧ ml.trigger ≠ "")
       then ml.trigger else combinedPayload req) := by
  rcases hcr : CheckRequest req rules limited with ⟨s, tg, hb, pl⟩
  have hpl : pl = combinedPayload req := by
    have h4 : (CheckRequest req rules limited).2.2.2 = combinedPayload req := rfl
    rw [hcr] at h4
    exact h4
  subst hpl
  by_cases hml : hb = false ∧ s < 15
  · rcases hd : Decide s hb ml.isAnomaly ml.confidence with ⟨v, rs, src⟩
    simp [pipelineDecide, hcr, if_pos hml, hd]
  · have hsrc : (Decide s hb false 0).2.2 = "Rule Engine" := by
      rcases not_and_or.mp hml with h | h
      · have hb' : hb = true := by simpa using h
        simp [Decide, hb']
      · have hs : (15 : Int) ≤ s := by omega
        cases hb <;> simp [Decide, hs]
    rcases hd : Decide s hb false 0 with ⟨v, rs, src⟩
    rw [hd] at hsrc
    simp only at hsrc
    subst hsrc
    simp [pipelineDecide, hcr, if_neg hml, hd]

def cexMLResult : MLResult := ⟨true, 0.9, "", ""⟩

/-- The event the pipeline emits on the C8 counterexample input: an
ML-engine block whose `trigger_content` is empty. -/
def cexBlockedEvent : AttackEvent :=
  ⟨"u1", "d1", "ip", "/", "AI/Hybrid Anomaly Detected", "Blocked", "ML Engine", [], 0, 0.9, ""⟩

theorem serveHTTP_cex_events :
    serveHTTP [("a.example", cexDomain)] [] "" cexPlainRequest "ip" false cexMLResult =
      ⟨.respond 403 ("WAF Blocked: " ++ "AI/Hybrid Anomaly Detected"), [cexBlockedEvent]⟩ := by
  have hcr : CheckRequest cexPlainRequest [] false =
      (0, [], false, combinedPayload cexPlainRequest) := rfl
  have hd : Decide 0 false true (0.9 : ℚ) =
      (blockVerdict, "AI/Hybrid Anomaly Detected", "ML Engine") := by
    norm_num [Decide]
  have ho : pipelineDecide [] cexPlainRequest false cexMLResult =
      ⟨blockVerdict, "AI/Hybrid Anomaly Detected", "ML Engine", cexMLResult, 0, [], ""⟩ := by
    simp only [pipelineDecide, hcr]
    rw [if_pos (⟨trivial, by norm_num⟩ : True ∧ (0 : Int) < 15)]
    rw [show cexMLResult.isAnomaly = true from rfl, show cexMLResult.confidence = (0.9 : ℚ)
      from rfl, hd]
    simp [cexMLResult]
  have hlk : List.lookup (getHost cexPlainRequest.host) [("a.example", cexDomain)] =
      some cexDomain := rfl
  rw [serveHTTP]
  rw [hlk]
  simp only [List.lookup_nil, Option.getD_none, ho]
  norm_num [mkEvent, cexBlockedEvent, cexDomain, cexPlainRequest, cexMLResult, blockVerdict]

/-- The C8 claim as stated: the emitted trigger equals the ML
`trigger_content` exactly when the verdict source is the ML engine or
hybrid AND the `trigger_content` is non-empty, and otherwise equals the
rule engine's combined inspection string. -/
def trigPayloadClaim : Prop :=
  ∀ (dm : List (String × Domain)) (dr : List (String × List WAFRule)) (pg : String)
    (req : Request) (ip : String) (limited : Bool) (ml : MLResult),
    ∀ e ∈ (serveHTTP dm dr pg req ip limited ml).events,
      e.trigger = if (e.source = "ML Engine" ∨ e.source = "Hybrid") ∧ ml.trigger ≠ ""
        then ml.trigger else combinedPayload req

/-- Counterexample for C8: when the ML scorer blocks (source "ML Engine")
but returns an empty `trigger_content`, the code stores the empty ML
trigger, not the rule engine's combined string: the `||` in
`source == "ML Engine" || (source == "Hybrid" && mlTrigger != "")`
does not guard the ML-engine arm by non-emptiness. -/
theorem trigger_replacement_claim_false : ¬ trigPayloadClaim := by
  intro h
  have h2 := h [("a.example", cexDomain)] [] "" cexPlainRequest "ip" false cexMLResult
    cexBlockedEvent (by rw [serveHTTP_cex_events]; exact List.mem_singleton.mpr rfl)
  rw [show cexBlockedEvent.trigger = "" from rfl] at h2
  simp only [cexBlockedEvent, cexMLResult, ne_eq] at h2
  norm_num at h2
  have : combinedPayload cexPlainRequest = "/  " := rfl
  rw [this] at h2
  exact absurd h2 (by decide)

/-- **C8 (amended).** The emitted trigger payload equals the ML client's
`trigger_content` when the verdict source is `MLEngine` (regardless of
emptiness), or when it is `Hybrid` and the `trigger_content` is
non-empty; in every other case it is the rule engine's combined
inspection string. -/
theorem event_trigger_matches_source (dm : List (String × Domain))
    (dr : List (String × List WAFRule)) (pg : String) (req : Request) (ip : String)
    (limited : Bool) (ml : MLResult) (e : AttackEvent)
    (he : e ∈ (serveHTTP dm dr pg req ip limited ml).events) :
    e.trigger = if e.source = "ML Engine" ∨ (e.source = "Hybrid" ∧ ml.trigger ≠ "")
      then ml.trigger else combinedPayload req := by
  rw [serveHTTP] at he
  rcases hlk : List.lookup (getHost req.host) dm with _ | dInfo
  · rw [hlk] at he
    simp at he
  · rw [hlk] at he
    simp only at he
    by_cases h1 : (pipelineDecide ((dr.lookup (getHost req.host)).getD []) req limited ml).verdict
        = blockVerdict
    · rw [if_pos h1] at he
      simp only [List.mem_singleton] at he
      subst he
      exact pipelineDecide_trigger _ req limited ml
    · rw [if_neg h1] at he
      by_cases h2 : (pipelineDecide ((dr.lookup (getHost req.host)).getD []) req limited
          ml).verdict = monitorVerdict
      · rw [if_pos h2] at he
        simp only [List.mem_singleton] at he
        subst he
        exact pipelineDecide_trigger _ req limited ml
      · rw [if_neg h2] at he
        simp at he

/-- Witness for `event_trigger_matches_source` at the concrete blocked
event of `serveHTTP_cex_events`. -/
theorem event_trigger_matches_source_witness :
    cexBlockedEvent ∈ (serveHTTP [("a.example", cexDomain)] [] "" cexPlainRequest "ip" false
        cexMLResult).events ∧
    cexBlockedEvent.trigger =
      if cexBlockedEvent.source = "ML Engine" ∨
          (cexBlockedEvent.source = "Hybrid" ∧ cexMLResult.trigger ≠ "")
        then cexMLResult.trigger else combinedPayload cexPlainRequest :=
  ⟨by rw [serveHTTP_cex_events]; exact List.mem_singleton.mpr rfl,
    event_trigger_matches_source [("a.example", cexDomain)] [] "" cexPlainRequest "ip" false
      cexMLResult cexBlockedEvent
      (by rw [serveHTTP_cex_events]; exact List.mem_singleton.mpr rfl)⟩

/-! ## Policy cache reload

From `WAFHandler.ReloadRules` (`gateway/internal/proxy/handler.go` lines
74–192) and the identically structured `WAFService.ReloadRules`
(`rule_service.go`): four fetches, each aborting the rebuild on error,
then the host map and host-to-rules map are rebuilt and swapped.  The
fetch results are the four `Except` arguments. -/

/-- `models.DNSRecord` (intent store). -/
structure DNSRecord where
  id : String
  domainID : String
  name : String
  type : String
  content : String
  ttl : Int
  proxied : Bool
  originSSL : Bool
  deriving DecidableEq

/-- An overwriting Go map write on an association list. -/
def mapInsert {β : Type} (k : String) (v : β) (m : List (String × β)) : List (String × β) :=
  (k, v) :: m.filter (fun p => !(p.1 == k))

/-- The cache fields guarded by the reader/writer lock. -/
structure CacheState where
  domainRules : List (String × List WAFRule)
  domainMap : List (String × Domain)
  globalFallback : List WAFRule

/-- Step 2 of `ReloadRules`: active domains by name, then every DNS
record of an active parent mapped to that parent. -/
def buildDomainMap (domains : List Domain) (dnsRecords : List DNSRecord) :
    List (String × Domain) :=
  let activeByID := domains.foldl
    (fun m d => if d.status == "active" then mapInsert d.id d m else m) []
  let m1 := domains.foldl
    (fun m d => if d.status == "active" then mapInsert d.name d m else m) []
  dnsRecords.foldl (fun m r =>
    match activeByID.lookup r.domainID with
    | some parent => mapInsert r.name parent m
    | none => m) m1

/-- Step 5 of `ReloadRules`: each active domain's effective ruleset,
assigned to its root name and to every DNS-record name under it. -/
def buildDomainRules (domains : List Domain) (dnsRecords : List DNSRecord)
    (rules : List WAFRule) (ps : List RulePolicy) : List (String × List WAFRule) :=
  domains.foldl (fun m d =>
    if d.status == "active" then
      let eff := effectiveRules rules ps d
      let m1 := mapInsert d.name eff m
      dnsRecords.foldl (fun m2 r => if r.domainID == d.id then mapInsert r.name eff m2 else m2) m1
    else m) []

/-- Embedding of `ReloadRules`: any fetch error returns before touching
the cache fields; otherwise the rebuilt maps are swapped in. -/
def reloadRules (st : CacheState) (fr : Except String (List WAFRule))
    (fp : Except String (List RulePolicy)) (fd : Except String (List Domain))
    (fdns : Except String (List DNSRecord)) : CacheState :=
  match fr with
  | .error _ => st
  | .ok allRules =>
    match fp with
    | .error _ => st
    | .ok policies =>
      match fd with
      | .error _ => st
      | .ok domains =>
        match fdns with
        | .error _ => st
        | .ok dnsRecords =>
          { domainRules := buildDomainRules domains dnsRecords allRules policies,
            domainMap := buildDomainMap domains dnsRecords,
            globalFallback := globalsOf allRules }

/-- **C6.** If any of the four fetch steps (rules, policy overrides,
domains, DNS records) errors, the rebuild is aborted and the cache —
in particular the host map and the host-to-rules map — is exactly the
state from before the reload. -/
theorem reload_aborts_on_fetch_error (st : CacheState) (fr : Except String (List WAFRule))
    (fp : Except String (List RulePolicy)) (fd : Except String (List Domain))
    (fdns : Except String (List DNSRecord))
    (herr : fr.isOk = false ∨ fp.isOk = false ∨ fd.isOk = false ∨ fdns.isOk = false) :
    reloadRules st fr fp fd fdns = st ∧
    (reloadRules st fr fp fd fdns).domainMap = st.domainMap ∧
    (reloadRules st fr fp fd fdns).domainRules = st.domainRules := by
  rcases fr with e | allRules
  · exact ⟨rfl, rfl, rfl⟩
  rcases fp with e | policies
  · exact ⟨rfl, rfl, rfl⟩
  rcases fd with e | domains
  · exact ⟨rfl, rfl, rfl⟩
  rcases fdns with e | dnsRecords
  · exact ⟨rfl, rfl, rfl⟩
  simp [Except.isOk, Except.toBool] at herr

/-- Witness for `reload_aborts_on_fetch_error`: a failed rules fetch
leaves a non-trivial cache untouched. -/
theorem reload_aborts_on_fetch_error_witness :
    ((Except.error "db down" : Except String (List WAFRule)).isOk = false ∨
      (Except.ok [] : Except String (List RulePolicy)).isOk = false ∨
      (Except.ok [] : Except String (List Domain)).isOk = false ∨
      (Except.ok [] : Except String (List DNSRecord)).isOk = false) ∧
    reloadRules ⟨[("a.example", [cexRuleHigh])], [("a.example", cexDomain)], [cexRuleHigh]⟩
        (.error "db down") (.ok []) (.ok []) (.ok []) =
      ⟨[("a.example", [cexRuleHigh])], [("a.example", cexDomain)], [cexRuleHigh]⟩ :=
  ⟨Or.inl rfl,
    (reload_aborts_on_fetch_error ⟨[("a.example", [cexRuleHigh])], [("a.example", cexDomain)],
      [cexRuleHigh]⟩ (.error "db down") (.ok []) (.ok []) (.ok []) (Or.inl rfl)).1⟩

/-! ## Proxy-mode toggle ("the big swap")

From `DomainHandler.ToggleProxyMode` (`gateway/internal/handler/domain.go`
lines 330–362), acting on the resolver-store rows of the toggled zone. -/

/-- One `records` row of the resolver (PowerDNS) store. -/
structure ResolverRow where
  name : String
  type : String
  content : String
  ttl : Int
  deriving DecidableEq

/-- Modelled from the spec: `sql.DNSRepository.DeleteRecordsByType`, which
`ToggleProxyMode` calls but which is absent from the source drop.  Per
spec §4.6 ("delete all A and CNAME rows for this zone from the
resolver"), it removes every row of the given type from the zone's
rows. -/
def deleteRecordsByType (rows : List ResolverRow) (t : String) : List ResolverRow :=
  rows.filter (fun r => !(r.type == t))

/-- `sql.DNSRepository.CreateRecord` restricted to the zone's rows: insert
one row with the record's name, type, content and TTL. -/
def createResolverRecord (rows : List ResolverRow) (rec : DNSRecord) : List ResolverRow :=
  rows ++ [⟨rec.name, rec.type, rec.content, rec.ttl⟩]

/-- Embedding of the swap goroutine of `ToggleProxyMode`.  Enabling:
delete the zone's A rows then its CNAME rows, insert the WAF A at the
apex with TTL 300.  Disabling: delete the A rows, then insert every
intent A/CNAME record. -/
def toggleProxySwap (wafIP zoneName : String) (intent : List DNSRecord)
    (resolver : List ResolverRow) (enabled : Bool) : List ResolverRow :=
  if enabled then
    let r1 := deleteRecordsByType resolver "A"
    let r2 := deleteRecordsByType r1 "CNAME"
    r2 ++ [⟨zoneName, "A", wafIP, 300⟩]
  else
    let r1 := deleteRecordsByType resolver "A"
    intent.foldl (fun acc rec =>
      if rec.type == "A" || rec.type == "CNAME" then createResolverRecord acc rec else acc) r1

theorem filter_nonroutable_insert_loop (intent : List DNSRecord) (acc : List ResolverRow) :
    (intent.foldl (fun a rec =>
        if rec.type == "A" || rec.type == "CNAME" then createResolverRecord a rec else a)
      acc).filter (fun r => !(r.type == "A") && !(r.type == "CNAME")) =
    acc.filter (fun r => !(r.type == "A") && !(r.type == "CNAME")) := by
  induction intent generalizing acc with
  | nil => rfl
  | cons rec rest ih =>
    rcases hA : rec.type == "A" || rec.type == "CNAME" with _ | _
    · simp only [List.foldl_cons, hA, Bool.false_eq_true, if_false]
      exact ih acc
    · simp only [List.foldl_cons, hA, if_true]
      rw [ih]
      simp only [createResolverRecord, List.filter_append]
      rcases Bool.or_eq_true_iff.mp hA with h | h <;> simp [h]

/-- **C5.** The proxy-mode swap, in either direction, only deletes and
inserts A and CNAME rows: the zone's rows of every other type — in
particular the verification types TXT, MX, NS and SOA — are exactly
preserved, so any such record's presence in the resolver store is
unchanged by the toggle. -/
theorem toggle_preserves_verification_records (wafIP zoneName : String)
    (intent : List DNSRecord) (resolver : List ResolverRow) (enabled : Bool) :
    (toggleProxySwap wafIP zoneName intent resolver enabled).filter
        (fun r => !(r.type == "A") && !(r.type == "CNAME")) =
      resolver.filter (fun r => !(r.type == "A") && !(r.type == "CNAME")) ∧
    (∀ row : ResolverRow, row.type ∈ (["TXT", "MX", "NS", "SOA"] : List String) →
      (row ∈ toggleProxySwap wafIP zoneName intent resolver enabled ↔ row ∈ resolver)) := by
  have hfilter : (toggleProxySwap wafIP zoneName intent resolver enabled).filter
      (fun r => !(r.type == "A") && !(r.type == "CNAME")) =
      resolver.filter (fun r => !(r.type == "A") && !(r.type == "CNAME")) := by
    rcases enabled with _ | _
    · simp only [toggleProxySwap, Bool.false_eq_true, if_false, deleteRecordsByType]
      rw [filter_nonroutable_insert_loop]
      rw [List.filter_filter]
      apply List.filter_congr
      intro a _
      cases h1 : a.type == "A" <;> cases h2 : a.type == "CNAME" <;> simp [h1, h2]
    · simp only [toggleProxySwap, if_true, deleteRecordsByType, List.filter_append,
        List.filter_filter]
      have hwaf : (([⟨zoneName, "A", wafIP, 300⟩] : List ResolverRow).filter
          (fun r => !(r.type == "A") && !(r.type == "CNAME"))) = [] := by simp
      rw [hwaf, List.append_nil]
      apply List.filter_congr
      intro a _
      cases h1 : a.type == "A" <;> cases h2 : a.type == "CNAME" <;> simp [h1, h2]
  refine ⟨hfilter, fun row hv => ?_⟩
  have hrow : (!(row.type == "A") && !(row.type == "CNAME")) = true := by
    simp only [List.mem_cons, List.not_mem_nil, or_false] at hv
    rcases hv with h | h | h | h <;> simp [h]
  constructor
  · intro hm
    have : row ∈ (toggleProxySwap wafIP zoneName intent resolver enabled).filter
        (fun r => !(r.type == "A") && !(r.type == "CNAME")) :=
      List.mem_filter.mpr ⟨hm, hrow⟩
    rw [hfilter] at this
    exact (List.mem_filter.mp this).1
  · intro hm
    have : row ∈ resolver.filter (fun r => !(r.type == "A") && !(r.type == "CNAME")) :=
      List.mem_filter.mpr ⟨hm, hrow⟩
    rw [← hfilter] at this
    exact (List.mem_filter.mp this).1

/-- Witness for `toggle_preserves_verification_records`: enabling proxy
mode on a zone with one TXT and one A row keeps the TXT row present. -/
theorem toggle_preserves_verification_records_witness :
    ("TXT" : String) ∈ (["TXT", "MX", "NS", "SOA"] : List String) ∧
    ((⟨"b.example", "TXT", "v=spf1", 300⟩ : ResolverRow) ∈
        toggleProxySwap "198.51.100.7" "b.example" []
          [⟨"b.example", "TXT", "v=spf1", 300⟩, ⟨"b.example", "A", "203.0.113.10", 300⟩] true ↔
      (⟨"b.example", "TXT", "v=spf1", 300⟩ : ResolverRow) ∈
        [⟨"b.example", "TXT", "v=spf1", 300⟩, ⟨"b.example", "A", "203.0.113.10", 300⟩]) :=
  ⟨by decide,
    (toggle_preserves_verification_records "198.51.100.7" "b.example" []
      [⟨"b.example", "TXT", "v=spf1", 300⟩, ⟨"b.example", "A", "203.0.113.10", 300⟩] true).2
      ⟨"b.example", "TXT", "v=spf1", 300⟩ (by decide)⟩

/-! ## Domain verification and ownership takeover

From `DomainService.VerifyDomainOwner`
(`gateway/internal/service/domain_service.go` lines 93–143) and
`database.RevokeOldOwnership` / `UpdateDomainStatus`
(`database/domain_repo.go`).  The RDAP call is an oracle: `.error` for a
network/parse/404 failure, `.ok` with the raw `ldhName` list
otherwise. -/

/-- `database.GetDomainByID`: `FindOne` on `_id`. -/
def findDomainByID (store : List Domain) (id : String) : Option Domain :=
  store.find? (fun d => d.id == id)

/-- Embedding of `database.RevokeOldOwnership`: `DeleteMany` of every row
with the same name and a different id — regardless of owner or status. -/
def revokeOldOwnership (store : List Domain) (domainName keepID : String) : List Domain :=
  store.filter (fun d => !(d.name == domainName && !(d.id == keepID)))

/-- `database.UpdateDomainStatus`: `UpdateOne` sets the status of the
first row with the given id. -/
def updateDomainStatus : List Domain → String → String → List Domain
  | [], _, _ => []
  | d :: rest, id, status =>
    if d.id == id then { d with status := status } :: rest
    else d :: updateDomainStatus rest id status

/-- `strings.TrimSuffix(ldhName, ".")`: drop one trailing dot. -/
def stripTrailingDot (s : String) : String :=
  if s.data.getLast? = some '.' then String.mk s.data.dropLast else s

/-- ASCII lower-casing of one character. -/
def lowerChar (c : Char) : Char :=
  if 'A' ≤ c ∧ c ≤ 'Z' then Char.ofNat (c.toNat + 32) else c

/-- Go `strings.EqualFold` at ASCII level: equality after folding
case. -/
def eqFold (a b : String) : Bool := a.data.map lowerChar == b.data.map lowerChar

/-- Embedding of `DomainService.VerifyDomainOwner`: fetch the domain,
check ownership, query RDAP, count the assigned nameservers present in
the registrar list (case-insensitively, trailing dots stripped during
parsing); on full match revoke other rows with the same name, then set
the domain active. -/
def verifyDomainOwner (store : List Domain) (domainID userID : String)
    (rdap : Except String (List String)) : Except String (Bool × List Domain) :=
  match findDomainByID store domainID with
  | none => .error "domain not found"
  | some domain =>
    if !(domain.userID == userID) then .error "unauthorized"
    else
      match rdap with
      | .error e => .error ("RDAP verification unavailable: " ++ e)
      | .ok raw =>
        let foundNS := raw.map stripTrailingDot
        let matchedCount := (domain.nameservers.filter
          (fun assigned => foundNS.any (fun live => eqFold live assigned))).length
        let verified := matchedCount == domain.nameservers.length &&
          decide (0 < domain.nameservers.length)
        if verified then
          let store1 := revokeOldOwnership store domain.name domain.id
          let store2 := updateDomainStatus store1 domain.id "active"
          .ok (true, store2)
        else .ok (false, store)

theorem updateDomainStatus_eq_map {l : List Domain} {id status : String}
    (hids : (l.map (fun d => d.id)).Nodup) :
    updateDomainStatus l id status =
      l.map (fun x => if x.id == id then { x with status := status } else x) := by
  induction l with
  | nil => rfl
  | cons y rest ih =>
    simp only [List.map_cons, List.nodup_cons] at hids
    obtain ⟨hy, hrest⟩ := hids
    rcases hyid : y.id == id with _ | _
    · simp only [updateDomainStatus, hyid, Bool.false_eq_true, if_false, List.map_cons]
      rw [ih hrest]
    · simp only [updateDomainStatus, hyid, if_true, List.map_cons]
      congr 1
      have : ∀ x ∈ rest, (if x.id == id then { x with status := status } else x) = x := by
        intro x hx
        have hxid : x.id ≠ id := by
          intro hcontra
          apply hy
          have hyid' : y.id = id := by simpa using hyid
          rw [hyid', ← hcontra]
          exact List.mem_map_of_mem _ hx
        simp [hxid]
      exact (List.map_congr_left this).trans (List.map_id rest) |>.symm

/-- **C7.** With the domain found and owned by the caller (and the
data-model invariant that its assigned nameserver list is non-empty and
store ids are unique): verification succeeds — revoking other rows and
activating — iff every assigned nameserver appears, case-insensitively
and with trailing dots stripped, in the registrar's RDAP list; it fails
(store untouched) iff some assigned nameserver is missing; and in the
success store every row carrying the domain's name is the verified
domain itself, now active — every other row with that name was deleted
by the revocation step, which runs before the status update. -/
theorem verify_domain_owner_takeover (store : List Domain) (domainID userID : String)
    (raw : List String) (domain : Domain)
    (hfind : findDomainByID store domainID = some domain)
    (howner : domain.userID = userID)
    (hns : domain.nameservers ≠ [])
    (hids : (store.map (fun d => d.id)).Nodup) :
    (verifyDomainOwner store domainID userID (.ok raw) =
        .ok (true, updateDomainStatus (revokeOldOwnership store domain.name domain.id)
          domain.id "active") ↔
      ∀ ns ∈ domain.nameservers, ∃ live ∈ raw.map stripTrailingDot, eqFold live ns = true) ∧
    (verifyDomainOwner store domainID userID (.ok raw) = .ok (false, store) ↔
      ¬ ∀ ns ∈ domain.nameservers, ∃ live ∈ raw.map stripTrailingDot, eqFold live ns = true) ∧
    (∀ d ∈ updateDomainStatus (revokeOldOwnership store domain.name domain.id) domain.id
        "active", d.name = domain.name → d.id = domain.id ∧ d.status = "active") := by
  have hlen0 : 0 < domain.nameservers.length := List.length_pos.mpr hns
  have hverA : ((domain.nameservers.filter
        (fun assigned => (raw.map stripTrailingDot).any (fun live => eqFold live assigned))).length
        == domain.nameservers.length && decide (0 < domain.nameservers.length)) = true ↔
      ∀ ns ∈ domain.nameservers, ∃ live ∈ raw.map stripTrailingDot, eqFold live ns = true := by
    rw [Bool.and_eq_true, beq_iff_eq, decide_eq_true_iff]
    constructor
    · rintro ⟨h1, _⟩ ns hmem
      exact List.any_eq_true.mp (List.filter_length_eq_length.mp h1 ns hmem)
    · intro hall
      exact ⟨List.filter_length_eq_length.mpr
        (fun ns hmem => List.any_eq_true.mpr (hall ns hmem)), hlen0⟩
  have hbeq : (domain.userID == userID) = true := by simp [howner]
  refine ⟨?_, ?_, ?_⟩
  · simp only [verifyDomainOwner, hfind, hbeq, Bool.not_true, Bool.false_eq_true, if_false]
    rcases hv : ((domain.nameservers.filter
        (fun assigned => (raw.map stripTrailingDot).any (fun live => eqFold live assigned))).length
        == domain.nameservers.length && decide (0 < domain.nameservers.length)) with _ | _
    · rw [if_neg (by simp [hv])]
      simp only [Except.ok.injEq, Prod.mk.injEq]
      constructor
      · rintro ⟨h, _⟩
        exact absurd h (by simp)
      · intro hall
        rw [← hverA] at hall
        rw [hall] at hv
        exact absurd hv (by simp)
    · rw [if_pos (by simp [hv])]
      simp only [true_iff]
      exact hverA.mp hv
  · simp only [verifyDomainOwner, hfind, hbeq, Bool.not_true, Bool.false_eq_true, if_false]
    rcases hv : ((domain.nameservers.filter
        (fun assigned => (raw.map stripTrailingDot).any (fun live => eqFold live assigned))).length
        == domain.nameservers.length && decide (0 < domain.nameservers.length)) with _ | _
    · rw [if_neg (by simp [hv])]
      constructor
      · intro _ hall
        rw [← hverA] at hall
        rw [hall] at hv
        exact absurd hv (by simp)
      · intro _
        rfl
    · rw [if_pos (by simp [hv])]
      constructor
      · intro h
        exact absurd h (by simp)
      · intro hnall
        exact absurd (hverA.mp hv) hnall
  · intro d hd hname
    have hids1 : ((revokeOldOwnership store domain.name domain.id).map
        (fun x => x.id)).Nodup := by
      have hsub : (revokeOldOwnership store domain.name domain.id).Sublist store :=
        List.filter_sublist store
      exact (hsub.map (fun x => x.id)).nodup hids
    rw [updateDomainStatus_eq_map hids1] at hd
    obtain ⟨x, hx, hxd⟩ := List.mem_map.mp hd
    obtain ⟨hxstore, hxcond⟩ := List.mem_filter.mp hx
    rcases hxid : x.id == domain.id with _ | _
    · rw [hxid] at hxd
      simp only [Bool.false_eq_true, if_false] at hxd
      subst hxd
      exfalso
      simp [hname, hxid] at hxcond
    · rw [hxid] at hxd
      simp only [if_true] at hxd
      subst hxd
      exact ⟨by simpa using hxid, rfl⟩

def cexOldOwner : Domain :=
  ⟨"dOld", "t1", "c.example", "active", ["ns1.host.example", "ns2.host.example"], true⟩

def cexNewOwner : Domain :=
  ⟨"dNew", "t2", "c.example", "pending_verification",
    ["jiniyas.ns.minishield.tech", "rabin.ns.minishield.tech"], true⟩

def cexRDAPList : List String := ["JINIYAS.NS.MINISHIELD.TECH.", "rabin.ns.minishield.tech"]

/-- Witness for `verify_domain_owner_takeover`: a pending domain whose two
assigned nameservers both appear at the registrar (one upper-cased with a
trailing dot) verifies, superseding the old owner's active row. -/
theorem verify_domain_owner_takeover_witness :
    (findDomainByID [cexOldOwner, cexNewOwner] "dNew" = some cexNewOwner ∧
      cexNewOwner.userID = "t2" ∧ cexNewOwner.nameservers ≠ [] ∧
      ([cexOldOwner, cexNewOwner].map (fun d => d.id)).Nodup) ∧
    verifyDomainOwner [cexOldOwner, cexNewOwner] "dNew" "t2" (.ok cexRDAPList) =
      .ok (true, updateDomainStatus (revokeOldOwnership [cexOldOwner, cexNewOwner]
        cexNewOwner.name cexNewOwner.id) cexNewOwner.id "active") :=
  ⟨⟨by decide, rfl, by decide, by decide⟩,
    (verify_domain_owner_takeover [cexOldOwner, cexNewOwner] "dNew" "t2" cexRDAPList cexNewOwner
      (by decide) rfl (by decide) (by decide)).1.mpr (by decide)⟩

/-! ## DNS record creation

From `DNSService.AddRecord` (`gateway/internal/service/dns_service.go`
lines 43–123) with its helpers `validateContent` and `checkConflicts`,
and the Mongo helpers of `dns_mongo_repo.go`.  The two storage writes are
oracles: `mongoOk` for the intent insert, `pdnsOk` for the best-effort
resolver insert (whose internals are abstracted — a failure yields the
"DNS Propagation Error" result after the intent write, as in the code).
`net.ParseIP` is modelled exactly for dotted-quad IPv4; an IPv6 textual
form is approximated as "contains a colon" (no claim exercises IPv6 or
such contents). -/

def isSpaceChar (c : Char) : Bool :=
  c == ' ' || c == '\t' || c == '\n' || c == '\r' || c == Char.ofNat 11 || c == Char.ofNat 12

/-- Go `strings.TrimSpace` at ASCII level. -/
def trimSpace (s : String) : String :=
  String.mk (((s.data.dropWhile isSpaceChar).reverse.dropWhile isSpaceChar).reverse)

def upperChar (c : Char) : Char :=
  if 'a' ≤ c ∧ c ≤ 'z' then Char.ofNat (c.toNat - 32) else c

/-- Go `strings.ToUpper` at ASCII level. -/
def toUpperStr (s : String) : String := String.mk (s.data.map upperChar)

def isAlnum (c : Char) : Bool :=
  ('a' ≤ c && c ≤ 'z') || ('A' ≤ c && c ≤ 'Z') || ('0' ≤ c && c ≤ '9')

def isLabelChar (c : Char) : Bool := isAlnum c || c == '-'

/-- One DNS label of the `domainRegex` pattern
`[a-z0-9]([a-z0-9-]{0,61}[a-z0-9])?` (case-insensitive). -/
def validLabel (l : List Char) : Bool :=
  match l with
  | [] => false
  | [c] => isAlnum c
  | c :: rest =>
    isAlnum c && decide (rest.length ≤ 62) &&
    (match rest.getLast? with
     | some lastc => isAlnum lastc && rest.dropLast.all isLabelChar
     | none => false)

/-- The language of `domainRegex` (dns_service.go line 17): dot-separated
labels, each matching `validLabel`. -/
def domainRegexMatch (s : String) : Bool := (s.data.splitOn '.').all validLabel

def isDigitChar (c : Char) : Bool := '0' ≤ c && c ≤ '9'

/-- One octet of a Go dotted-quad IPv4 literal: 1–3 digits, value ≤ 255,
no leading zero. -/
def validOctet (l : List Char) : Bool :=
  !(l == []) && decide (l.length ≤ 3) && l.all isDigitChar &&
  !(decide (1 < l.length) && (l.headD '0' == '0')) &&
  decide (l.foldl (fun acc c => acc * 10 + (c.toNat - 48)) 0 ≤ 255)

/-- `net.ParseIP` succeeding with a non-nil `To4()`: a dotted quad. -/
def isIPv4 (s : String) : Bool :=
  (s.data.splitOn '.').length == 4 && (s.data.splitOn '.').all validOctet

/-- Approximation of an IPv6 textual form (see section comment). -/
def looksIPv6 (s : String) : Bool := s.data.contains ':'

/-- `net.ParseIP(content) != nil`, under the IPv6 approximation. -/
def parseIPSucceeds (s : String) : Bool := isIPv4 s || looksIPv6 s

/-- Embedding of `DNSService.validateContent`. -/
def validateContent (rType content : String) : Option String :=
  if rType == "A" then
    if isIPv4 content then none else some "content must be a valid IPv4 address"
  else if rType == "AAAA" then
    if looksIPv6 content && !(isIPv4 content) then none
    else some "content must be a valid IPv6 address"
  else if rType == "CNAME" then
    if parseIPSucceeds content then some "CNAME content must be a domain name, not IP"
    else if !(domainRegexMatch (stripTrailingDot content)) then some "invalid domain format"
    else none
  else if rType == "MX" || rType == "NS" then
    if !(domainRegexMatch (stripTrailingDot content)) then some "invalid domain format"
    else none
  else if rType == "TXT" then
    if decide (2048 < content.length) then some "TXT record too long" else none
  else none

/-- `database.CheckDNSRecordExists`: any record with this domain, name
and type. -/
def checkDNSRecordExists (records : List DNSRecord) (domainID name rType : String) : Bool :=
  records.any (fun rec => rec.domainID == domainID && rec.name == name && rec.type == rType)

/-- `database.CheckDuplicateDNSRecord`: any record with this domain,
name, type and content. -/
def checkDuplicateDNSRecord (records : List DNSRecord)
    (domainID name rType content : String) : Bool :=
  records.any (fun rec => rec.domainID == domainID && rec.name == name &&
    rec.type == rType && rec.content == content)

/-- Embedding of `DNSService.checkConflicts`: a CNAME may not coexist
with any record at the name; otherwise no CNAME may exist there and
exact duplicates are rejected. -/
def checkConflicts (records : List DNSRecord) (domainID name rType content : String) :
    Option String :=
  if rType == "CNAME" then
    if (["A", "AAAA", "CNAME", "MX", "TXT", "NS"] : List String).any
        (fun t => checkDNSRecordExists records domainID name t) then
      some "CNAME record cannot coexist with other records"
    else none
  else
    if checkDNSRecordExists records domainID name "CNAME" then
      some "CNAME record already exists for this hostname"
    else if checkDuplicateDNSRecord records domainID name rType content then
      some "duplicate record already exists"
    else none

instance {ε α : Type} [DecidableEq ε] [DecidableEq α] : DecidableEq (Except ε α) := fun
  | .error a, .error b =>
    if h : a = b then .isTrue (by rw [h]) else .isFalse (by simp [h])
  | .error _, .ok _ => .isFalse (by simp)
  | .ok _, .error _ => .isFalse (by simp)
  | .ok a, .ok b =>
    if h : a = b then .isTrue (by rw [h]) else .isFalse (by simp [h])

/-- The record store after an `AddRecord` call, with the call's result. -/
structure AddRecordResult where
  store : List DNSRecord
  result : Except String DNSRecord
  deriving DecidableEq

/-- Steps 4–10 of `AddRecord` (after sanitizing, ownership/status and TTL
validation): content validation, record-name building, CNAME checks,
conflict checks, intent write, resolver write. -/
def addRecordValidated (records : List DNSRecord) (domain : Domain) (req : DNSRecord)
    (name content rType : String) (ttl : Int) (newID : String) (mongoOk pdnsOk : Bool) :
    AddRecordResult :=
  match validateContent rType content with
  | some e => ⟨records, .error e⟩
  | none =>
    match (if name ≠ "" ∧ name ≠ "@" then
             (if domainRegexMatch name then Except.ok (name ++ "." ++ domain.name)
              else Except.error "record name contains invalid characters")
           else Except.ok domain.name : Except String String) with
    | .error e => ⟨records, .error e⟩
    | .ok recordName =>
      if rType == "CNAME" && recordName == domain.name then
        ⟨records, .error "root domain (@) cannot be a CNAME record"⟩
      else if rType == "CNAME" && (stripTrailingDot content == recordName) then
        ⟨records, .error "CNAME cannot point to itself"⟩
      else
        match checkConflicts records req.domainID recordName rType content with
        | some e => ⟨records, .error e⟩
        | none =>
          if mongoOk then
            let newRecord : DNSRecord :=
              ⟨newID, req.domainID, recordName, rType, content, ttl, req.proxied, false⟩
            if pdnsOk then ⟨records ++ [newRecord], .ok newRecord⟩
            else ⟨records ++ [newRecord], .error "DNS Propagation Error"⟩
          else ⟨records, .error "database error"⟩

/-- Embedding of `DNSService.AddRecord` steps 1–3 (sanitize, ownership
and status, TTL defaulting and range check), deferring to
`addRecordValidated`. -/
def addRecord (domains : List Domain) (records : List DNSRecord) (req : DNSRecord)
    (userID newID : String) (mongoOk pdnsOk : Bool) : AddRecordResult :=
  let name := trimSpace req.name
  let content := trimSpace req.content
  let rType := toUpperStr (trimSpace req.type)
  match findDomainByID domains req.domainID with
  | none => ⟨records, .error "domain not found"⟩
  | some domain =>
    if !(domain.userID == userID) then ⟨records, .error "unauthorized"⟩
    else if !(domain.status == "active") then
      ⟨records, .error "domain must be verified before adding records"⟩
    else
      let ttl := if req.ttl == 0 then 300 else req.ttl
      if ttl < 60 ∨ 86400 < ttl then
        ⟨records, .error "TTL must be between 60 and 86400 seconds"⟩
      else addRecordValidated records domain req name content rType ttl newID mongoOk pdnsOk

theorem validateContent_error_ne_ttl (rType content e : String)
    (h : validateContent rType content = some e) :
    e ≠ "TTL must be between 60 and 86400 seconds" := by
  unfold validateContent at h
  split_ifs at h <;>
    first
      | exact Option.noConfusion h
      | (rw [Option.some.injEq] at h; subst h; decide)

theorem checkConflicts_error_ne_ttl (records : List DNSRecord)
    (domainID name rType content e : String)
    (h : checkConflicts records domainID name rType content = some e) :
    e ≠ "TTL must be between 60 and 86400 seconds" := by
  unfold checkConflicts at h
  split_ifs at h <;>
    first
      | exact Option.noConfusion h
      | (rw [Option.some.injEq] at h; subst h; decide)

theorem addRecordValidated_spec (records : List DNSRecord) (domain : Domain)
    (req : DNSRecord) (name content rType : String) (ttl : Int) (newID : String)
    (mongoOk pdnsOk : Bool) :
    (addRecordValidated records domain req name content rType ttl newID mongoOk
        pdnsOk).result ≠ .error "TTL must be between 60 and 86400 seconds" ∧
    (∀ rec, (addRecordValidated records domain req name content rType ttl newID mongoOk
        pdnsOk).result = .ok rec →
      rec.ttl = ttl ∧ (addRecordValidated records domain req name content rType ttl newID
        mongoOk pdnsOk).store = records ++ [rec]) := by
  unfold addRecordValidated
  rcases hvc : validateContent rType content with _ | e
  case some =>
    simpa using validateContent_error_ne_ttl rType content e hvc
  rcases hnm : (if name ≠ "" ∧ name ≠ "@" then
      (if domainRegexMatch name then Except.ok (name ++ "." ++ domain.name)
       else Except.error "record name contains invalid characters")
     else Except.ok domain.name : Except String String) with e | recordName
  case error =>
    have : e = "record name contains invalid characters" := by
      split_ifs at hnm
      all_goals simp_all
    simp [this]
  dsimp only
  by_cases h1 : (rType == "CNAME" && recordName == domain.name) = true
  · rw [if_pos h1]
    simp
  rw [if_neg h1]
  by_cases h2 : (rType == "CNAME" && stripTrailingDot content == recordName) = true
  · rw [if_pos h2]
    simp
  rw [if_neg h2]
  rcases hcc : checkConflicts records req.domainID recordName rType content with _ | e
  · dsimp only
    rcases mongoOk with _ | _
    · simp
    · rcases pdnsOk with _ | _
      · simp
      · constructor
        · simp
        · intro rec hrec
          rw [if_pos rfl, if_pos rfl] at hrec
          dsimp only at hrec
          rw [Except.ok.injEq] at hrec
          subst hrec
          rw [if_pos rfl, if_pos rfl]
          exact ⟨rfl, rfl⟩
  · simpa using checkConflicts_error_ne_ttl records req.domainID recordName rType content e hcc

/-- **C9.** With the domain found, owned and active: a requested TTL
outside [60, 86400] (and non-zero) fails with the TTL error and leaves
the record store untouched; a requested TTL inside [60, 86400] — the
bounds included — passes the TTL validation and any record the call
creates carries exactly the requested TTL, appended to the store; and a
requested TTL of 0 is not rejected but defaulted, so a created record
carries TTL 300. -/
theorem addRecord_ttl_bounds (domains : List Domain) (records : List DNSRecord)
    (req : DNSRecord) (userID newID : String) (mongoOk pdnsOk : Bool) (domain : Domain)
    (hfind : findDomainByID domains req.domainID = some domain)
    (howner : domain.userID = userID) (hact : domain.status = "active") :
    ((req.ttl ≠ 0 ∧ (req.ttl < 60 ∨ 86400 < req.ttl)) →
      addRecord domains records req userID newID mongoOk pdnsOk =
        ⟨records, .error "TTL must be between 60 and 86400 seconds"⟩) ∧
    ((60 ≤ req.ttl ∧ req.ttl ≤ 86400) →
      ((addRecord domains records req userID newID mongoOk pdnsOk).result ≠
          .error "TTL must be between 60 and 86400 seconds" ∧
        ∀ rec, (addRecord domains records req userID newID mongoOk pdnsOk).result =
            .ok rec →
          rec.ttl = req.ttl ∧
          (addRecord domains records req userID newID mongoOk pdnsOk).store =
            records ++ [rec])) ∧
    (req.ttl = 0 →
      ((addRecord domains records req userID newID mongoOk pdnsOk).result ≠
          .error "TTL must be between 60 and 86400 seconds" ∧
        ∀ rec, (addRecord domains records req userID newID mongoOk pdnsOk).result =
            .ok rec → rec.ttl = 300)) := by
  have hbeq : (domain.userID == userID) = true := by simp [howner]
  have hsbeq : (domain.status == "active") = true := by simp [hact]
  refine ⟨?_, ?_, ?_⟩
  · rintro ⟨hne, hout⟩
    have hz : (req.ttl == 0) = false := by simp [hne]
    simp only [addRecord, hfind, hbeq, hsbeq, Bool.not_true, Bool.false_eq_true, if_false, hz]
    rw [if_pos hout]
  · rintro ⟨h60, h84⟩
    have hz : (req.ttl == 0) = false := by
      have : req.ttl ≠ 0 := by omega
      simp [this]
    have hin : ¬(req.ttl < 60 ∨ 86400 < req.ttl) := by omega
    simp only [addRecord, hfind, hbeq, hsbeq, Bool.not_true, Bool.false_eq_true, if_false, hz,
      if_neg hin]
    exact addRecordValidated_spec records domain req (trimSpace req.name)
      (trimSpace req.content) (toUpperStr (trimSpace req.type)) req.ttl newID mongoOk pdnsOk
  · intro hz0
    have hz : (req.ttl == 0) = true := by simp [hz0]
    have hin : ¬((300 : Int) < 60 ∨ 86400 < (300 : Int)) := by omega
    simp only [addRecord, hfind, hbeq, hsbeq, Bool.not_true, Bool.false_eq_true, if_false, hz,
      if_true, if_neg hin]
    have h := addRecordValidated_spec records domain req (trimSpace req.name)
      (trimSpace req.content) (toUpperStr (trimSpace req.type)) 300 newID mongoOk pdnsOk
    exact ⟨h.1, fun rec hrec => (h.2 rec hrec).1⟩

def cexTXTReq : DNSRecord := ⟨"", "d1", "www", "TXT", "hello", 60, false, false⟩

def cexCreatedRec : DNSRecord :=
  ⟨"n1", "d1", "www.example.com", "TXT", "hello", 60, false, false⟩

/-- Witness for `addRecord_ttl_bounds`: on the active domain
`example.com`, a TXT record with TTL exactly 60 is created as given,
while the same request with TTL 59 fails with the TTL error and leaves
the store empty. -/
theorem addRecord_ttl_bounds_witness :
    (findDomainByID [cexDomain] cexTXTReq.domainID = some cexDomain ∧
      cexDomain.userID = "u1" ∧ cexDomain.status = "active" ∧
      (60 : Int) ≤ cexTXTReq.ttl ∧ cexTXTReq.ttl ≤ 86400) ∧
    (addRecord [cexDomain] [] cexTXTReq "u1" "n1" true true).result = .ok cexCreatedRec ∧
    cexCreatedRec.ttl = cexTXTReq.ttl ∧
    (addRecord [cexDomain] [] cexTXTReq "u1" "n1" true true).store = [] ++ [cexCreatedRec] ∧
    addRecord [cexDomain] [] ⟨"", "d1", "www", "TXT", "hello", 59, false, false⟩ "u1" "n1"
        true true = ⟨[], .error "TTL must be between 60 and 86400 seconds"⟩ := by
  have hres : (addRecord [cexDomain] [] cexTXTReq "u1" "n1" true true).result =
      .ok cexCreatedRec := by decide
  refine ⟨⟨by decide, rfl, rfl, by decide, by decide⟩, hres, ?_, ?_, ?_⟩
  · exact ((addRecord_ttl_bounds [cexDomain] [] cexTXTReq "u1" "n1" true true cexDomain
      (by decide) rfl rfl).2.1 ⟨by decide, by decide⟩).2 cexCreatedRec hres |>.1
  · exact ((addRecord_ttl_bounds [cexDomain] [] cexTXTReq "u1" "n1" true true cexDomain
      (by decide) rfl rfl).2.1 ⟨by decide, by decide⟩).2 cexCreatedRec hres |>.2
  · exact (addRecord_ttl_bounds [cexDomain] []
      ⟨"", "d1", "www", "TXT", "hello", 59, false, false⟩ "u1" "n1" true true cexDomain
      (by decide) rfl rfl).1 ⟨by decide, by decide⟩

end Optimize
